import Mathlib

/-! # go-ui-fs: fallback filesystem and buffered file wrapper

A shallow embedding of `fs.go` (package `uifs`).

* Go `error` values are the inductive `GoError`; a `(value, error)` return pair whose
  error is checked before the value is used is an `Except GoError _`.
* `int64` values are integers; every `int64` addition or subtraction of the source is
  followed by `wrapInt64` (two's complement wrap-around).
* Byte slices are `List UInt8`; a slice expression that would panic yields `none`.
* The wrapped `fs.FS` is a function from paths to open results (the bundle is immutable);
  `FallbackFS.open` additionally records the paths it passes to the wrapped filesystem.
* `sync.RWMutex` is not modelled: the development is sequential.
-/

namespace Uifs

/-! ## Errors -/

/-- Go error values: the sentinel `fs.ErrNotExist`, any other leaf error, a `*fs.PathError`
around an inner error, and an error built by `fmt.Errorf` with the `%w` verb. -/
inductive GoError where
  | ErrNotExist : GoError
  | other (code : Nat) : GoError
  | PathError (op : String) (path : String) (err : GoError) : GoError
  | wrapf (context : String) (err : GoError) : GoError
  deriving DecidableEq, Repr

/-- Go `errors.Unwrap`: the next error of the chain, if any. -/
def GoError.Unwrap : GoError → Option GoError
  | .PathError _ _ err => some err
  | .wrapf _ err => some err
  | _ => none

/-- Go `errors.Is(err, target)` for a non-nil `err`: some error of the unwrap chain of
`err` equals `target`. -/
def errorsIs : GoError → GoError → Bool
  | .ErrNotExist, target => decide (GoError.ErrNotExist = target)
  | .other c, target => decide (GoError.other c = target)
  | .PathError op path err, target =>
      decide (GoError.PathError op path err = target) || errorsIs err target
  | .wrapf ctx err, target =>
      decide (GoError.wrapf ctx err = target) || errorsIs err target

/-! ## Machine integers -/

/-- The value an `int64` holds after an arithmetic result `x` wraps around. -/
def wrapInt64 (x : Int) : Int := (x + 2 ^ 63) % 2 ^ 64 - 2 ^ 63

/-- The integer is representable as an `int64`. -/
def isInt64 (x : Int) : Prop := -(2 ^ 63) ≤ x ∧ x < 2 ^ 63

instance (x : Int) : Decidable (isInt64 x) := by
  unfold isInt64; exact inferInstance

/-- Go `io.SeekStart`. -/
def SeekStart : Int := 0
/-- Go `io.SeekCurrent`. -/
def SeekCurrent : Int := 1
/-- Go `io.SeekEnd`. -/
def SeekEnd : Int := 2

/-! ## File metadata and handles of the wrapped filesystem -/

/-- The values an `fs.FileInfo` reports. `ModTime` is a `time.Time`, kept as an integer
instant; `Sys` stands for the implementation-specific data source. -/
structure FileInfo where
  Name : String
  Size : Int
  Mode : Nat
  ModTime : Int
  IsDir : Bool
  Sys : Nat
  deriving DecidableEq, Repr

/-- An open `fs.File` of the wrapped filesystem: what its `Stat` returns, the bytes it
yields when read to exhaustion, and the non-EOF error that ends the reading, if any. -/
structure File where
  Stat : Except GoError FileInfo
  data : List UInt8
  readErr : Option GoError

/-- Go `io.ReadAll` on a handle: the bytes read and the error, `none` when the handle was
read up to EOF. -/
def ioReadAll (f : File) : List UInt8 × Option GoError := (f.data, f.readErr)

/-! ## Buffered file wrapper -/

/-- The `EmbeddedFile` struct (the lock and the unused embedded `io.Seeker` left out). -/
structure EmbeddedFile where
  File : File
  buildTime : Int
  seekPtr : Int
  content : List UInt8

/-- The `EmbeddedFileInfo` struct: an `fs.FileInfo` with a fixed build time. -/
structure EmbeddedFileInfo where
  FileInfo : FileInfo
  buildTime : Int

/-- Go `NewEmbeddedFile`. -/
def NewEmbeddedFile (f : File) (buildTime : Int) : Except GoError EmbeddedFile :=
  match ioReadAll f with
  | (_, some err) => .error (.wrapf "reading file content: " err)
  | (content, none) => .ok { File := f, buildTime := buildTime, seekPtr := 0, content := content }

/-- The overriding method `(*EmbeddedFileInfo).ModTime`. -/
def EmbeddedFileInfo.ModTime (i : EmbeddedFileInfo) : Int := i.buildTime
/-- Promoted from the embedded `fs.FileInfo`. -/
def EmbeddedFileInfo.Name (i : EmbeddedFileInfo) : String := i.FileInfo.Name
/-- Promoted from the embedded `fs.FileInfo`. -/
def EmbeddedFileInfo.Size (i : EmbeddedFileInfo) : Int := i.FileInfo.Size
/-- Promoted from the embedded `fs.FileInfo`. -/
def EmbeddedFileInfo.Mode (i : EmbeddedFileInfo) : Nat := i.FileInfo.Mode
/-- Promoted from the embedded `fs.FileInfo`. -/
def EmbeddedFileInfo.IsDir (i : EmbeddedFileInfo) : Bool := i.FileInfo.IsDir
/-- Promoted from the embedded `fs.FileInfo`. -/
def EmbeddedFileInfo.Sys (i : EmbeddedFileInfo) : Nat := i.FileInfo.Sys

/-- Go `(*EmbeddedFile).Stat`. -/
def EmbeddedFile.Stat (f : EmbeddedFile) : Except GoError EmbeddedFileInfo :=
  match f.File.Stat with
  | .error err => .error err
  | .ok stat => .ok { FileInfo := stat, buildTime := f.buildTime }

/-- What `Seek` returns, with the wrapper as the call leaves it. -/
structure SeekResult where
  pos : Int
  err : Option GoError
  file : EmbeddedFile

/-- Go `(*EmbeddedFile).seekUnlocked`. `len(f.content)` is a Go `int`, so its conversion
to `int64` is the identity. -/
def EmbeddedFile.seekUnlocked (f : EmbeddedFile) (offset : Int) (whence : Int) : SeekResult :=
  let v : Int :=
    if whence = SeekStart then offset
    else if whence = SeekCurrent then wrapInt64 (f.seekPtr + offset)
    else if whence = SeekEnd then wrapInt64 ((f.content.length : Int) - offset)
    else 0
  let v : Int :=
    if v < 0 then 0
    else if v > (f.content.length : Int) then (f.content.length : Int)
    else v
  { pos := v, err := none, file := { f with seekPtr := v } }

/-- Go `(*EmbeddedFile).Seek`: `seekUnlocked` under the lock. -/
def EmbeddedFile.Seek (f : EmbeddedFile) (offset : Int) (whence : Int) : SeekResult :=
  f.seekUnlocked offset whence

/-- The Go slice expression `s[lo:hi]` with `int64` bounds: `none` is the run-time panic
for bounds out of range. The high bound is checked against the length; the capacity a Go
slice may have beyond its length is not modelled, and the one slice expression of the
source never has its high bound above the length. -/
def sliceBytes (s : List UInt8) (lo hi : Int) : Option (List UInt8) :=
  if 0 ≤ lo ∧ lo ≤ hi ∧ hi ≤ (s.length : Int) then
    some ((s.drop lo.toNat).take (hi - lo).toNat)
  else none

/-- Go builtin `copy(dst, src)`: the number of bytes copied and `dst` afterwards. -/
def goCopy (dst src : List UInt8) : Nat × List UInt8 :=
  let k := min dst.length src.length
  (k, src.take k ++ dst.drop k)

/-- What `Read` returns, with the caller's buffer and the wrapper as the call leaves
them. -/
structure ReadResult where
  n : Int
  err : Option GoError
  buf : List UInt8
  file : EmbeddedFile

/-- Go `(*EmbeddedFile).Read` on the buffer `p`; `none` when the slice expression
`f.content[start:end]` panics. -/
def EmbeddedFile.Read (f : EmbeddedFile) (p : List UInt8) : Option ReadResult :=
  let start := f.seekPtr
  let r := f.seekUnlocked (p.length : Int) SeekCurrent
  match r.err with
  | some err => some { n := 0, err := some err, buf := p, file := r.file }
  | none =>
    let stop := r.file.seekPtr
    match sliceBytes r.file.content start stop with
    | none => none
    | some window =>
      let c := goCopy p window
      some { n := (c.1 : Int), err := none, buf := c.2, file := r.file }

/-! ## Paths -/

/-- The elements of a path between its `/` separators. -/
def splitSep : List Char → List (List Char)
  | [] => [[]]
  | c :: cs =>
    if c = '/' then [] :: splitSep cs
    else
      match splitSep cs with
      | [] => [[c]]
      | x :: xs => (c :: x) :: xs

/-- One step of Go `filepath.Clean`: the cleaned elements so far, last one first, take in
the next element of the path. Empty and `.` elements are dropped; `..` removes the last
real element, stays when the path is not rooted and nothing can be removed, and is
dropped at the root. -/
def cleanStep (rooted : Bool) (out : List (List Char)) (e : List Char) : List (List Char) :=
  if e = [] ∨ e = ['.'] then out
  else if e = ['.', '.'] then
    match out with
    | [] => if rooted then [] else [e]
    | top :: rest => if top = ['.', '.'] then e :: out else rest
  else e :: out

/-- Go `filepath.Clean` on a Unix path, over characters. -/
def cleanChars (path : List Char) : List Char :=
  if path = [] then ['.']
  else
    let rooted : Bool := decide (path.head? = some '/')
    let out := ((splitSep path).foldl (cleanStep rooted) []).reverse
    let body := List.intercalate ['/'] out
    if rooted then '/' :: body
    else if body = [] then ['.']
    else body

/-- Go `filepath.Clean` (Unix separator, no volume name). -/
def filepathClean (path : String) : String := String.mk (cleanChars path.data)

/-- Go `filepath.Join` of two elements: from the first non-empty element on, the elements
are joined with `/` and cleaned; the result is empty when both are empty. -/
def filepathJoin (a b : String) : String :=
  if a ≠ "" then filepathClean (String.mk (a.data ++ '/' :: b.data))
  else if b ≠ "" then filepathClean b
  else ""

/-! ## Fallback filesystem -/

/-- The wrapped `fs.FS`: the result of `Open` on each path. -/
structure FS where
  Open : String → Except GoError File

/-- The `FallbackFS` struct; `pfx` is the field `prefix` of the source. -/
structure FallbackFS where
  FS : FS
  pfx : String
  fallback : String
  buildTime : Int

/-- Go `NewFallbackFS`. -/
def NewFallbackFS (f : FS) (pfx fallback : String) (buildTime : Int) : FallbackFS :=
  { FS := f, pfx := pfx, fallback := filepathJoin pfx fallback, buildTime := buildTime }

/-- The `fs.File` a `FallbackFS` hands out: the wrapped filesystem's own handle, or an
`*EmbeddedFile` around it. -/
inductive Handle where
  | file (f : File) : Handle
  | embedded (ef : EmbeddedFile) : Handle

/-- The `fs.FileInfo` a handle's `Stat` hands out: the wrapped filesystem's own value, or
an `*EmbeddedFileInfo` around it. -/
inductive Info where
  | plain (i : FileInfo) : Info
  | embedded (i : EmbeddedFileInfo) : Info

/-- Method `ModTime` through the `fs.FileInfo` interface. -/
def Info.ModTime : Info → Int
  | .plain i => i.ModTime
  | .embedded i => i.ModTime
/-- Method `IsDir` through the `fs.FileInfo` interface. -/
def Info.IsDir : Info → Bool
  | .plain i => i.IsDir
  | .embedded i => i.IsDir
/-- Method `Name` through the `fs.FileInfo` interface. -/
def Info.Name : Info → String
  | .plain i => i.Name
  | .embedded i => i.Name
/-- Method `Size` through the `fs.FileInfo` interface. -/
def Info.Size : Info → Int
  | .plain i => i.Size
  | .embedded i => i.Size
/-- Method `Mode` through the `fs.FileInfo` interface. -/
def Info.Mode : Info → Nat
  | .plain i => i.Mode
  | .embedded i => i.Mode
/-- Method `Sys` through the `fs.FileInfo` interface. -/
def Info.Sys : Info → Nat
  | .plain i => i.Sys
  | .embedded i => i.Sys

/-- Method `Stat` through the `fs.File` interface. -/
def Handle.Stat : Handle → Except GoError Info
  | .file f => f.Stat.map Info.plain
  | .embedded ef => ef.Stat.map Info.embedded

/-- What `FallbackFS.open` does: the paths it passed to the wrapped filesystem's `Open`,
in call order, and the `(fs.File, error)` pair it returns. -/
structure OpenResult where
  opened : List String
  result : Except GoError Handle

/-- Go `(*FallbackFS).open`. The first open is the primary one; `retry` is the test
`errors.Is(err, fs.ErrNotExist)`, false for a nil error; `second` is the `(file, err)`
pair after the conditional retry. -/
def FallbackFS.«open» (f : FallbackFS) (name : String) : OpenResult :=
  let primary := filepathJoin f.pfx name
  let first := f.FS.Open primary
  let retry : Bool :=
    match first with
    | .error err => errorsIs err .ErrNotExist
    | .ok _ => false
  let opened := if retry then [primary, f.fallback] else [primary]
  let second := if retry then f.FS.Open f.fallback else first
  match second with
  | .error err => { opened := opened, result := .error err }
  | .ok file =>
    match file.Stat with
    | .error err => { opened := opened, result := .error (.wrapf "stating file: " err) }
    | .ok stat =>
      if stat.IsDir then { opened := opened, result := .ok (.file file) }
      else
        match NewEmbeddedFile file f.buildTime with
        | .error err =>
          { opened := opened, result := .error (.wrapf "wrapping embedded file: " err) }
        | .ok ef => { opened := opened, result := .ok (.embedded ef) }

/-- Go `(*FallbackFS).Open`. -/
def FallbackFS.Open (f : FallbackFS) (name : String) : OpenResult :=
  f.«open» name

/-! ## Specification-side helpers and sample data -/

/-- What `(*FallbackFS).open` makes of a handle it has opened, its lines from
`file.Stat()` on as a function of that handle: the stat error wrapped, the handle itself
for a directory, a wrapper or the wrapped construction error otherwise. -/
def wrapOpened (buildTime : Int) (file : File) : Except GoError Handle :=
  match file.Stat with
  | .error err => .error (.wrapf "stating file: " err)
  | .ok stat =>
    if stat.IsDir then .ok (.file file)
    else
      match NewEmbeddedFile file buildTime with
      | .error err => .error (.wrapf "wrapping embedded file: " err)
      | .ok ef => .ok (.embedded ef)

/-- The number of bytes a read into an `n`-byte buffer takes from a wrapper with a cursor
inside its content: `min(n, L - p)`. -/
def readCount (f : EmbeddedFile) (n : Nat) : Nat :=
  min n (f.content.length - f.seekPtr.toNat)

/-- The bytes of `hello`, the content of `response.txt` in the sample bundle. -/
def helloBytes : List UInt8 := [104, 101, 108, 108, 111]

/-- The bytes of `<html>`, the content of `index.html` in the sample bundle. -/
def htmlBytes : List UInt8 := [60, 104, 116, 109, 108, 62]

/-- The error a filesystem reports for a missing path. -/
def notFound (path : String) : GoError := .PathError "open" path .ErrNotExist

/-- The error a filesystem reports for a path the process may not read. -/
def permissionDenied (path : String) : GoError := .PathError "open" path (.other 13)

/-- The handle of `assets/response.txt` in the sample bundle. -/
def responseFile : File :=
  { Stat := .ok { Name := "response.txt", Size := 5, Mode := 292, ModTime := 11,
                  IsDir := false, Sys := 0 }
    data := helloBytes
    readErr := none }

/-- The handle of `assets/index.html` in the sample bundle. -/
def indexFile : File :=
  { Stat := .ok { Name := "index.html", Size := 6, Mode := 292, ModTime := 22,
                  IsDir := false, Sys := 0 }
    data := htmlBytes
    readErr := none }

/-- The handle of the directory `assets` in the sample bundle; reading it as a file
fails. -/
def assetsDir : File :=
  { Stat := .ok { Name := "assets", Size := 0, Mode := 2147484013, ModTime := 33,
                  IsDir := true, Sys := 0 }
    data := []
    readErr := some (.other 21) }

/-- A sample bundle: two regular files under the directory `assets`, one unreadable path,
and nothing else. -/
def bundleFS : FS where
  Open path :=
    if path = "assets/response.txt" then .ok responseFile
    else if path = "assets/index.html" then .ok indexFile
    else if path = "assets" then .ok assetsDir
    else if path = "assets/locked" then .error (permissionDenied path)
    else .error (notFound path)

/-- A wrapper around the five bytes of `response.txt` with its cursor at `pos`. -/
def helloWrapper (pos : Int) : EmbeddedFile :=
  { File := responseFile, buildTime := 1000, seekPtr := pos, content := helloBytes }

/-- The metadata `i` reports every attribute other than the modification time as `st`
does. -/
def Info.sameAttributes (i : Info) (st : FileInfo) : Prop :=
  i.Name = st.Name ∧ i.Size = st.Size ∧ i.Mode = st.Mode ∧ i.IsDir = st.IsDir ∧
    i.Sys = st.Sys

instance (i : Info) (st : FileInfo) : Decidable (i.sameAttributes st) := by
  unfold Info.sameAttributes; exact inferInstance

/-- The sample bundle served under the prefix `assets` with the default fallback document
and build time 1000. -/
def sampleFS : FallbackFS := NewFallbackFS bundleFS "assets" "index.html" 1000

/-- The sample bundle served with a fallback document that is not in the bundle. -/
def brokenFallbackFS : FallbackFS := NewFallbackFS bundleFS "assets" "missing.html" 1000

/-- The calls on a wrapper that touch its cursor. -/
inductive Call where
  | Seek (offset : Int) (whence : Int) : Call
  | Read (p : List UInt8) : Call

/-- The wrapper as a call leaves it. `Read` stores the new cursor in `seekUnlocked` before
it evaluates the slice expression, so a `Read` that panics there leaves the wrapper that
`seekUnlocked` produced. -/
def EmbeddedFile.after (f : EmbeddedFile) : Call → EmbeddedFile
  | .Seek offset whence => (f.Seek offset whence).file
  | .Read p =>
    match f.Read p with
    | some r => r.file
    | none => (f.seekUnlocked (p.length : Int) SeekCurrent).file

/-- The wrapper after a sequence of calls, first call first. -/
def EmbeddedFile.afterAll (f : EmbeddedFile) (calls : List Call) : EmbeddedFile :=
  calls.foldl EmbeddedFile.after f

/-- The invariant of the data model: `0 <= seekPtr <= len(content)`. -/
def EmbeddedFile.cursorInRange (f : EmbeddedFile) : Prop :=
  0 ≤ f.seekPtr ∧ f.seekPtr ≤ (f.content.length : Int)

instance (f : EmbeddedFile) : Decidable f.cursorInRange := by
  unfold EmbeddedFile.cursorInRange; exact inferInstance

/-- A handle of a regular file whose reading breaks off with an I/O error after two
bytes. -/
def truncatedFile : File :=
  { Stat := .ok { Name := "app.js", Size := 9, Mode := 292, ModTime := 44,
                  IsDir := false, Sys := 0 }
    data := [118, 97]
    readErr := some (.other 5) }

/-- A handle whose `Stat` fails. -/
def staleFile : File :=
  { Stat := .error (.other 116)
    data := []
    readErr := none }

/-- A bundle whose files cannot be served: `assets/app.js` and the fallback document
`assets/index.html` break off while they are read, the stat of `assets/stale` fails, and
nothing else exists. -/
def faultyFS : FS where
  Open path :=
    if path = "assets/app.js" then .ok truncatedFile
    else if path = "assets/index.html" then .ok truncatedFile
    else if path = "assets/stale" then .ok staleFile
    else .error (notFound path)

/-- The faulty bundle served under the prefix `assets` with the default fallback
document. -/
def faultySampleFS : FallbackFS := NewFallbackFS faultyFS "assets" "index.html" 1000

/-- The error `Open` returns when the content read of the opened handle fails with `e`:
`NewEmbeddedFile` wraps `e`, and `open` wraps the result once more. -/
def readFailure (e : GoError) : GoError :=
  .wrapf "wrapping embedded file: " (.wrapf "reading file content: " e)

/-- The sample files held at the root of a bundle, with no directory `assets`. -/
def rootBundleFS : FS where
  Open path :=
    if path = "response.txt" then .ok responseFile
    else if path = "index.html" then .ok indexFile
    else .error (notFound path)

/-- The test of `filepath.Clean` for a rooted path. -/
def rootedChars (path : List Char) : Bool := decide (path.head? = some '/')

/-- The elements `filepath.Clean` keeps of a path, first one first. -/
def cleanElems (path : List Char) : List (List Char) :=
  ((splitSep path).foldl (cleanStep (rootedChars path)) []).reverse

/-- The path `filepath.Clean` writes for the elements it has kept. -/
def renderPath (rooted : Bool) (elems : List (List Char)) : List Char :=
  let body := List.intercalate ['/'] elems
  if rooted then '/' :: body
  else if body = [] then ['.']
  else body

/-- The path is prefix-qualified: it is the cleaned prefix, element by element, followed
by further elements. -/
def underPrefix (pfx path : String) : Prop :=
  ∃ rest : List (List Char),
    path.data = renderPath (rootedChars pfx.data) (cleanElems pfx.data ++ rest)

/-! ## Seek -/

theorem wrapInt64_of_isInt64 (x : Int) (h : isInt64 x) : wrapInt64 x = x := by
  unfold wrapInt64
  unfold isInt64 at h
  omega

theorem seekUnlocked_err (f : EmbeddedFile) (offset whence : Int) :
    (f.seekUnlocked offset whence).err = none := rfl

theorem seekUnlocked_content (f : EmbeddedFile) (offset whence : Int) :
    (f.seekUnlocked offset whence).file.content = f.content := rfl

theorem seekUnlocked_seekPtr (f : EmbeddedFile) (offset whence : Int) :
    (f.seekUnlocked offset whence).file.seekPtr = (f.seekUnlocked offset whence).pos := rfl

theorem seekUnlocked_pos_range (f : EmbeddedFile) (offset whence : Int) :
    0 ≤ (f.seekUnlocked offset whence).pos ∧
      (f.seekUnlocked offset whence).pos ≤ (f.content.length : Int) := by
  simp only [EmbeddedFile.seekUnlocked]
  split_ifs <;> omega

/-- A forward seek by a buffer length that does not overflow lands on the smaller of the
target and the content length. -/
theorem seekUnlocked_current_pos (f : EmbeddedFile) (n : Nat)
    (h0 : 0 ≤ f.seekPtr) (hfit : f.seekPtr + (n : Int) < 2 ^ 63) :
    (f.seekUnlocked (n : Int) SeekCurrent).pos
      = min (f.seekPtr + (n : Int)) (f.content.length : Int) := by
  have hw : wrapInt64 (f.seekPtr + (n : Int)) = f.seekPtr + (n : Int) :=
    wrapInt64_of_isInt64 _ ⟨by omega, hfit⟩
  simp only [EmbeddedFile.seekUnlocked, SeekStart, SeekCurrent, SeekEnd, hw]
  simp only [show ((1 : Int) = 0) = False from by simp, if_false, if_true]
  split_ifs <;> omega

/-- An end-relative seek whose difference `L - o` fits an `int64` lands on `L - o` clamped
into `[0, L]`. -/
theorem seekUnlocked_end_pos (f : EmbeddedFile) (o : Int)
    (hfit : isInt64 ((f.content.length : Int) - o)) :
    (f.seekUnlocked o SeekEnd).pos
      = max 0 (min (f.content.length : Int) ((f.content.length : Int) - o)) := by
  have hw := wrapInt64_of_isInt64 _ hfit
  simp only [EmbeddedFile.seekUnlocked, SeekStart, SeekCurrent, SeekEnd, hw]
  simp only [show ((2 : Int) = 0) = False from by simp,
    show ((2 : Int) = 1) = False from by simp, if_false, if_true]
  split_ifs <;> omega

/-- C7. For every wrapper, every offset and every whence value, `Seek` returns a nil
error and a position between 0 and the content length, stores that position as the new
cursor, and leaves the content as it was. -/
theorem Seek_clamps_into_content (f : EmbeddedFile) (offset whence : Int) :
    (f.Seek offset whence).err = none ∧
      0 ≤ (f.Seek offset whence).pos ∧
      (f.Seek offset whence).pos ≤ (f.content.length : Int) ∧
      (f.Seek offset whence).file.seekPtr = (f.Seek offset whence).pos ∧
      (f.Seek offset whence).file.content = f.content := by
  unfold EmbeddedFile.Seek
  exact ⟨rfl, (seekUnlocked_pos_range f offset whence).1,
    (seekUnlocked_pos_range f offset whence).2, rfl, rfl⟩

/-- C8 (failing input). On the five bytes of `hello`, `Seek(2, SeekEnd)` returns 3, but
`Seek(-2^63, SeekEnd)`, an `int64` offset, returns 0 although `L - o` clamped into
`[0, L]` over the integers is 5: the subtraction `5 - (-2^63)` wraps around to a negative
`int64` before the clamp. -/
theorem Seek_end_wraps_at_min_offset :
    ((helloWrapper 0).Seek 2 SeekEnd).pos = 3 ∧
      isInt64 (-(2 ^ 63)) ∧
      ((helloWrapper 0).Seek (-(2 ^ 63)) SeekEnd).pos = 0 ∧
      max (0 : Int) (min ((helloWrapper 0).content.length : Int)
        (((helloWrapper 0).content.length : Int) - (-(2 ^ 63)))) = 5 := by
  refine ⟨by decide, by decide, by decide, by decide⟩

/-! ## Read -/

/-- With the cursor inside the content and a buffer whose length added to the cursor fits
an `int64`, `Read` returns, and this is what it returns. -/
theorem Read_eq (f : EmbeddedFile) (p : List UInt8)
    (h0 : 0 ≤ f.seekPtr) (hL : f.seekPtr ≤ (f.content.length : Int))
    (hfit : f.seekPtr + (p.length : Int) < 2 ^ 63) :
    f.Read p = some
      { n := (readCount f p.length : Int)
        err := none
        buf := (f.content.drop f.seekPtr.toNat).take (readCount f p.length)
                ++ p.drop (readCount f p.length)
        file := { f with seekPtr := f.seekPtr + (readCount f p.length : Int) } } := by
  have hpos := seekUnlocked_current_pos f p.length h0 hfit
  have hfile : (f.seekUnlocked (p.length : Int) SeekCurrent).file
      = { f with seekPtr := (f.seekUnlocked (p.length : Int) SeekCurrent).pos } := rfl
  have hk : (f.seekUnlocked (p.length : Int) SeekCurrent).pos
      = f.seekPtr + (readCount f p.length : Int) := by
    rw [hpos]; unfold readCount; omega
  have hstop : ((f.seekPtr + (readCount f p.length : Int)) - f.seekPtr).toNat
      = readCount f p.length := by omega
  have hrc : readCount f p.length ≤ f.content.length - f.seekPtr.toNat := by
    unfold readCount; omega
  have hrp : readCount f p.length ≤ p.length := by
    unfold readCount; omega
  have hbound : 0 ≤ f.seekPtr ∧ f.seekPtr ≤ f.seekPtr + (readCount f p.length : Int) ∧
      f.seekPtr + (readCount f p.length : Int) ≤ (f.content.length : Int) := by
    refine ⟨h0, by omega, by omega⟩
  unfold EmbeddedFile.Read
  simp only [seekUnlocked_err, hfile, hk, sliceBytes, if_pos hbound, hstop, goCopy]
  have hlen : ((f.content.drop f.seekPtr.toNat).take (readCount f p.length)).length
      = readCount f p.length := by
    rw [List.length_take, List.length_drop]; omega
  simp only [hlen, Nat.min_eq_right hrp]
  rw [List.take_take, Nat.min_self]

/-- Whatever the state of the wrapper and the buffer, a `Read` that returns does so with
a nil error. -/
theorem Read_err_none (f : EmbeddedFile) (p : List UInt8) (r : ReadResult)
    (h : f.Read p = some r) : r.err = none := by
  unfold EmbeddedFile.Read at h
  simp only [seekUnlocked_err] at h
  split at h
  · exact absurd h (by simp)
  · simp only [Option.some.injEq] at h
    rw [← h]

/-- A read at cursor 0 into a buffer at least as long as the content `B` returns all of
`B`. -/
theorem Read_from_start (ef : EmbeddedFile) (B p : List UInt8)
    (hc : ef.content = B) (hs : ef.seekPtr = 0)
    (hlen : B.length ≤ p.length) (hfit : (p.length : Int) < 2 ^ 63) :
    ∃ r : ReadResult, ef.Read p = some r ∧ r.n = (B.length : Int) ∧ r.err = none ∧
      r.buf.take B.length = B ∧ r.buf.drop B.length = p.drop B.length ∧
      r.file.seekPtr = (B.length : Int) := by
  have hcount : readCount ef p.length = B.length := by
    simp only [readCount, hs, hc, Int.toNat_zero, Nat.sub_zero]
    omega
  have h0 : 0 ≤ ef.seekPtr := by rw [hs]
  have hL : ef.seekPtr ≤ (ef.content.length : Int) := by rw [hs]; omega
  have hf : ef.seekPtr + (p.length : Int) < 2 ^ 63 := by rw [hs]; omega
  refine ⟨_, Read_eq ef p h0 hL hf, ?_, rfl, ?_, ?_, ?_⟩
  · simp only [hcount]
  · simp only [hcount, hs, hc, Int.toNat_zero, List.drop_zero, List.take_length]
    rw [List.take_append_of_le_length (le_refl _), List.take_length]
  · simp only [hcount, hs, hc, Int.toNat_zero, List.drop_zero, List.take_length]
    rw [List.drop_append_of_le_length (le_refl _), List.drop_length, List.nil_append]
  · simp only [hcount, hs, zero_add]

/-- C9. For a wrapper with content `c` of length `L` and cursor `s` in `[0, L]`, and a
buffer `p` of length `n` with `s + n` within `int64` (true of any two byte slices in
memory), `Read` returns the count `k = min(n, L - s)` with a nil error, leaves
`c[s : s+k]` in the first `k` bytes of the buffer and the rest of the buffer as it was,
moves the cursor to `s + k` and keeps the content. -/
theorem Read_copies_window (f : EmbeddedFile) (p : List UInt8)
    (h0 : 0 ≤ f.seekPtr) (hL : f.seekPtr ≤ (f.content.length : Int))
    (hfit : f.seekPtr + (p.length : Int) < 2 ^ 63) :
    ∃ r : ReadResult, f.Read p = some r ∧
      r.n = min (p.length : Int) ((f.content.length : Int) - f.seekPtr) ∧
      r.err = none ∧
      r.buf.length = p.length ∧
      r.buf.take r.n.toNat = (f.content.drop f.seekPtr.toNat).take r.n.toNat ∧
      r.buf.drop r.n.toNat = p.drop r.n.toNat ∧
      r.file.seekPtr = f.seekPtr + r.n ∧
      r.file.content = f.content ∧
      r.file.File = f.File ∧ r.file.buildTime = f.buildTime := by
  have hrc : readCount f p.length ≤ f.content.length - f.seekPtr.toNat := by
    unfold readCount; omega
  have hrp : readCount f p.length ≤ p.length := by
    unfold readCount; omega
  have hlen : ((f.content.drop f.seekPtr.toNat).take (readCount f p.length)).length
      = readCount f p.length := by
    rw [List.length_take, List.length_drop]; omega
  refine ⟨_, Read_eq f p h0 hL hfit, ?_, rfl, ?_, ?_, ?_, rfl, rfl, rfl, rfl⟩
  · show ((readCount f p.length : Nat) : Int) = _
    unfold readCount; omega
  · simp only [List.length_append, hlen, List.length_drop]; omega
  · simp only [Int.toNat_ofNat]
    rw [List.take_append_of_le_length (by omega), List.take_take, Nat.min_self]
  · simp only [Int.toNat_ofNat]
    rw [List.drop_append_of_le_length (by omega), List.drop_of_length_le (by omega)]
    rfl

/-- Scenario D, second half: on the five bytes of `hello` with the cursor at 3, reading
into a ten-byte buffer. -/
theorem Read_copies_window_witness :
    ∃ r : ReadResult, (helloWrapper 3).Read (List.replicate 10 0) = some r ∧
      r.n = min ((List.replicate 10 (0 : UInt8)).length : Int)
        (((helloWrapper 3).content.length : Int) - (helloWrapper 3).seekPtr) ∧
      r.err = none ∧
      r.buf.length = (List.replicate 10 (0 : UInt8)).length ∧
      r.buf.take r.n.toNat = ((helloWrapper 3).content.drop (helloWrapper 3).seekPtr.toNat).take
        r.n.toNat ∧
      r.buf.drop r.n.toNat = (List.replicate 10 (0 : UInt8)).drop r.n.toNat ∧
      r.file.seekPtr = (helloWrapper 3).seekPtr + r.n ∧
      r.file.content = (helloWrapper 3).content ∧
      r.file.File = (helloWrapper 3).File ∧ r.file.buildTime = (helloWrapper 3).buildTime :=
  Read_copies_window (helloWrapper 3) (List.replicate 10 0) (by decide) (by decide) (by decide)

/-- Scenario D evaluated: the read returns 2 and the last two bytes of `hello`. -/
theorem Read_scenario_D :
    ((helloWrapper 3).Read (List.replicate 10 0)).map (fun r => (r.n, r.err, r.buf, r.file.seekPtr))
      = some (2, none, [108, 111, 0, 0, 0, 0, 0, 0, 0, 0], 5) := by
  decide

/-- C10. For a wrapper with its cursor inside the content and a buffer whose length
added to the cursor fits an `int64`, `Read` returns with a nil error; with the cursor at
the end of the content, `Read` into a non-empty buffer returns `(0, nil)` and leaves the
buffer and the wrapper, cursor included, as they were. -/
theorem Read_returns_nil_error (f : EmbeddedFile) (p : List UInt8)
    (h0 : 0 ≤ f.seekPtr) (hL : f.seekPtr ≤ (f.content.length : Int))
    (hfit : f.seekPtr + (p.length : Int) < 2 ^ 63) :
    (∃ r : ReadResult, f.Read p = some r ∧ r.err = none) ∧
      (f.seekPtr = (f.content.length : Int) → p ≠ [] →
        f.Read p = some { n := 0, err := none, buf := p, file := f }) := by
  refine ⟨⟨_, Read_eq f p h0 hL hfit, rfl⟩, ?_⟩
  intro hend _
  have hzero : readCount f p.length = 0 := by
    unfold readCount; omega
  rw [Read_eq f p h0 hL hfit, hzero]
  simp

/-- A read at the end of the five bytes of `hello` into a three-byte buffer. -/
theorem Read_returns_nil_error_witness :
    (∃ r : ReadResult, (helloWrapper 5).Read [7, 8, 9] = some r ∧ r.err = none) ∧
      ((helloWrapper 5).seekPtr = ((helloWrapper 5).content.length : Int) →
        ([7, 8, 9] : List UInt8) ≠ [] →
        (helloWrapper 5).Read [7, 8, 9]
          = some { n := 0, err := none, buf := [7, 8, 9], file := helloWrapper 5 }) :=
  Read_returns_nil_error (helloWrapper 5) [7, 8, 9] (by decide) (by decide) (by decide)

/-! ## Open -/

/-- The result of `open` once the handle-or-error after the conditional retry is
known. -/
theorem open_tail (T : Int) (opened : List String) (second : Except GoError File) :
    (match second with
      | .error err => ({ opened := opened, result := .error err } : OpenResult)
      | .ok file =>
        match file.Stat with
        | .error err => { opened := opened, result := .error (.wrapf "stating file: " err) }
        | .ok stat =>
          if stat.IsDir then { opened := opened, result := .ok (.file file) }
          else
            match NewEmbeddedFile file T with
            | .error err =>
              { opened := opened, result := .error (.wrapf "wrapping embedded file: " err) }
            | .ok ef => { opened := opened, result := .ok (.embedded ef) })
      = { opened := opened, result := second.bind (wrapOpened T) } := by
  cases second with
  | error e => rfl
  | ok file =>
    simp only [Except.bind, wrapOpened]
    cases hs : file.Stat with
    | error e => rfl
    | ok st =>
      by_cases hd : st.IsDir = true
      · simp only [hd, if_true]
      · simp only [hd, if_false]
        cases hn : NewEmbeddedFile file T <;> rfl

theorem open_primary_ok (f : FallbackFS) (name : String) (file : File)
    (h : f.FS.Open (filepathJoin f.pfx name) = .ok file) :
    f.Open name
      = { opened := [filepathJoin f.pfx name], result := wrapOpened f.buildTime file } := by
  simp only [FallbackFS.Open, FallbackFS.«open», open_tail, h]
  rfl

theorem open_primary_other (f : FallbackFS) (name : String) (e : GoError)
    (h : f.FS.Open (filepathJoin f.pfx name) = .error e)
    (hne : errorsIs e .ErrNotExist = false) :
    f.Open name = { opened := [filepathJoin f.pfx name], result := .error e } := by
  simp only [FallbackFS.Open, FallbackFS.«open», open_tail, h, hne]
  rfl

theorem open_primary_missing (f : FallbackFS) (name : String) (e : GoError)
    (h : f.FS.Open (filepathJoin f.pfx name) = .error e)
    (hne : errorsIs e .ErrNotExist = true) :
    f.Open name = { opened := [filepathJoin f.pfx name, f.fallback],
                    result := (f.FS.Open f.fallback).bind (wrapOpened f.buildTime) } := by
  simp only [FallbackFS.Open, FallbackFS.«open», open_tail, h, hne]
  rfl

theorem wrapOpened_dir (T : Int) (file : File) (st : FileInfo)
    (hs : file.Stat = .ok st) (hd : st.IsDir = true) :
    wrapOpened T file = .ok (.file file) := by
  simp [wrapOpened, hs, hd]

theorem wrapOpened_regular (T : Int) (file : File) (st : FileInfo) (B : List UInt8)
    (hs : file.Stat = .ok st) (hd : st.IsDir = false) (hr : ioReadAll file = (B, none)) :
    wrapOpened T file
      = .ok (.embedded { File := file, buildTime := T, seekPtr := 0, content := B }) := by
  simp [wrapOpened, hs, hd, NewEmbeddedFile, hr]

/-- A handle that comes out of the stat-and-wrap tail is the opened handle itself when it
is a directory, and a fresh wrapper around it otherwise. -/
theorem wrapOpened_ok_cases (T : Int) (file : File) (h : Handle)
    (ho : wrapOpened T file = .ok h) :
    ∃ st : FileInfo, file.Stat = .ok st ∧
      ((st.IsDir = true ∧ h = .file file) ∨
        (st.IsDir = false ∧ file.readErr = none ∧
          h = .embedded { File := file, buildTime := T, seekPtr := 0,
                          content := file.data })) := by
  unfold wrapOpened at ho
  cases hs : file.Stat with
  | error e => simp [hs] at ho
  | ok st =>
    refine ⟨st, rfl, ?_⟩
    simp only [hs] at ho
    cases hd : st.IsDir with
    | true =>
      simp only [hd, if_true, Except.ok.injEq] at ho
      exact Or.inl ⟨rfl, ho.symm⟩
    | false =>
      cases hr : file.readErr with
      | some e => simp [hd, NewEmbeddedFile, ioReadAll, hr] at ho
      | none =>
        simp only [hd, NewEmbeddedFile, ioReadAll, hr, Except.ok.injEq] at ho
        exact Or.inr ⟨rfl, rfl, by simpa using ho.symm⟩

/-- Every handle `Open` returns wraps or is a handle that the wrapped filesystem returned
for one of the paths opened. -/
theorem open_ok_cases (f : FallbackFS) (name : String) (h : Handle)
    (ho : (f.Open name).result = .ok h) :
    ∃ (path : String) (file : File) (st : FileInfo),
      path ∈ (f.Open name).opened ∧ f.FS.Open path = .ok file ∧ file.Stat = .ok st ∧
      ((st.IsDir = true ∧ h = .file file) ∨
        (st.IsDir = false ∧ file.readErr = none ∧
          h = .embedded { File := file, buildTime := f.buildTime, seekPtr := 0,
                          content := file.data })) := by
  cases hp : f.FS.Open (filepathJoin f.pfx name) with
  | ok file =>
    rw [open_primary_ok f name file hp] at ho ⊢
    obtain ⟨st, hs, hc⟩ := wrapOpened_ok_cases _ _ _ ho
    exact ⟨_, file, st, List.mem_singleton.mpr rfl, hp, hs, hc⟩
  | error e =>
    cases hne : errorsIs e .ErrNotExist with
    | false =>
      rw [open_primary_other f name e hp hne] at ho
      simp at ho
    | true =>
      rw [open_primary_missing f name e hp hne] at ho ⊢
      cases hf : f.FS.Open f.fallback with
      | error e2 => simp [hf, Except.bind] at ho
      | ok file =>
        simp only [hf, Except.bind] at ho
        obtain ⟨st, hs, hc⟩ := wrapOpened_ok_cases _ _ _ ho
        exact ⟨_, file, st, by simp, hf, hs, hc⟩

/-- Opening the fallback name itself yields what opening the stored fallback path on the
wrapped filesystem yields, stat-and-wrap tail applied. -/
theorem open_fallback_name (fs : FS) (pfx fallback : String) (T : Int) :
    ((NewFallbackFS fs pfx fallback T).Open fallback).result
      = (fs.Open (filepathJoin pfx fallback)).bind (wrapOpened T) := by
  cases hp : fs.Open (filepathJoin pfx fallback) with
  | ok file =>
    rw [open_primary_ok (NewFallbackFS fs pfx fallback T) fallback file hp]
    rfl
  | error e =>
    cases hne : errorsIs e .ErrNotExist with
    | false =>
      rw [open_primary_other (NewFallbackFS fs pfx fallback T) fallback e hp hne]
      rfl
    | true =>
      rw [open_primary_missing (NewFallbackFS fs pfx fallback T) fallback e hp hne]
      show (fs.Open (filepathJoin pfx fallback)).bind (wrapOpened T) = _
      rw [hp]

/-- C1. When the primary open of `Join(prefix, name)` fails with a not-exist error,
`Open(name)` opens exactly two paths, the primary one and then the stored fallback path
`Join(prefix, fallback)` as it is; it returns what that second open yields (stat-and-wrap
tail applied), which is also what `Open(fallback)` returns; and when the fallback document
is a regular file whose bytes `B` are read without error, both return a wrapper with
content `B`. -/
theorem Open_missing_yields_fallback (fs : FS) (pfx fallback name : String) (T : Int)
    (e : GoError)
    (hmiss : fs.Open (filepathJoin pfx name) = .error e)
    (hne : errorsIs e .ErrNotExist = true) :
    ((NewFallbackFS fs pfx fallback T).Open name).opened
        = [filepathJoin pfx name, filepathJoin pfx fallback] ∧
      ((NewFallbackFS fs pfx fallback T).Open name).result
        = (fs.Open (filepathJoin pfx fallback)).bind (wrapOpened T) ∧
      ((NewFallbackFS fs pfx fallback T).Open name).result
        = ((NewFallbackFS fs pfx fallback T).Open fallback).result ∧
      (∀ (file : File) (st : FileInfo) (B : List UInt8),
        fs.Open (filepathJoin pfx fallback) = .ok file → file.Stat = .ok st →
        st.IsDir = false → ioReadAll file = (B, none) →
        ((NewFallbackFS fs pfx fallback T).Open name).result
            = .ok (.embedded { File := file, buildTime := T, seekPtr := 0, content := B }) ∧
          ((NewFallbackFS fs pfx fallback T).Open fallback).result
            = .ok (.embedded { File := file, buildTime := T, seekPtr := 0, content := B })) := by
  have hopen := open_primary_missing (NewFallbackFS fs pfx fallback T) name e hmiss hne
  have hres : ((NewFallbackFS fs pfx fallback T).Open name).result
      = (fs.Open (filepathJoin pfx fallback)).bind (wrapOpened T) := by
    rw [hopen]; rfl
  refine ⟨by rw [hopen]; rfl, hres, ?_, ?_⟩
  · rw [hres, open_fallback_name]
  · intro file st B hf hs hd hr
    rw [open_fallback_name, hres, hf]
    exact ⟨wrapOpened_regular T file st B hs hd hr, wrapOpened_regular T file st B hs hd hr⟩

/-- In the sample bundle `assets/missing/path` does not exist, and the fallback document
`assets/index.html` is served in its place. -/
theorem Open_missing_yields_fallback_witness :
    (sampleFS.Open "missing/path").opened
        = [filepathJoin "assets" "missing/path", filepathJoin "assets" "index.html"] ∧
      (sampleFS.Open "missing/path").result
        = (bundleFS.Open (filepathJoin "assets" "index.html")).bind (wrapOpened 1000) ∧
      (sampleFS.Open "missing/path").result = (sampleFS.Open "index.html").result ∧
      (∀ (file : File) (st : FileInfo) (B : List UInt8),
        bundleFS.Open (filepathJoin "assets" "index.html") = .ok file → file.Stat = .ok st →
        st.IsDir = false → ioReadAll file = (B, none) →
        (sampleFS.Open "missing/path").result
            = .ok (.embedded { File := file, buildTime := 1000, seekPtr := 0, content := B }) ∧
          (sampleFS.Open "index.html").result
            = .ok (.embedded { File := file, buildTime := 1000, seekPtr := 0, content := B })) :=
  Open_missing_yields_fallback bundleFS "assets" "index.html" "missing/path" 1000
    (notFound "assets/missing/path") rfl rfl

/-- In the sample bundle the fallback is opened at `assets/index.html`, not at the path
with the prefix joined a second time. -/
theorem Open_missing_path_evaluated :
    (sampleFS.Open "missing/path").opened = ["assets/missing/path", "assets/index.html"] ∧
      filepathJoin "assets" sampleFS.fallback = "assets/assets/index.html" ∧
      (sampleFS.Open "missing/path").result
        = .ok (.embedded { File := indexFile, buildTime := 1000, seekPtr := 0,
                           content := htmlBytes }) :=
  ⟨rfl, rfl, rfl⟩

/-- C2. When `Join(prefix, name)` opens as a regular file whose bytes `B` are read
without error, `Open(name)` opens that one path only and returns a wrapper around the
opened handle with content `B` and cursor 0; a read from it into any buffer at least as
long as `B` returns `len(B)` with a nil error and leaves `B` at the front of the
buffer. -/
theorem Open_existing_regular (f : FallbackFS) (name : String) (file : File)
    (st : FileInfo) (B : List UInt8)
    (hopen : f.FS.Open (filepathJoin f.pfx name) = .ok file)
    (hstat : file.Stat = .ok st) (hreg : st.IsDir = false)
    (hread : ioReadAll file = (B, none)) :
    ∃ ef : EmbeddedFile,
      (f.Open name).result = .ok (.embedded ef) ∧
      (f.Open name).opened = [filepathJoin f.pfx name] ∧
      ef.File = file ∧ ef.buildTime = f.buildTime ∧ ef.content = B ∧ ef.seekPtr = 0 ∧
      (∀ p : List UInt8, B.length ≤ p.length → (p.length : Int) < 2 ^ 63 →
        ∃ r : ReadResult, ef.Read p = some r ∧ r.n = (B.length : Int) ∧ r.err = none ∧
          r.buf.take B.length = B ∧ r.buf.drop B.length = p.drop B.length ∧
          r.file.seekPtr = (B.length : Int)) := by
  refine ⟨{ File := file, buildTime := f.buildTime, seekPtr := 0, content := B },
    ?_, ?_, rfl, rfl, rfl, rfl, ?_⟩
  · rw [open_primary_ok f name file hopen]
    exact wrapOpened_regular f.buildTime file st B hstat hreg hread
  · rw [open_primary_ok f name file hopen]
  · intro p hlen hfit
    exact Read_from_start _ B p rfl rfl hlen hfit

/-- In the sample bundle `assets/response.txt` is a regular file holding `hello`. -/
theorem Open_existing_regular_witness :
    ∃ ef : EmbeddedFile,
      (sampleFS.Open "response.txt").result = .ok (.embedded ef) ∧
      (sampleFS.Open "response.txt").opened = [filepathJoin sampleFS.pfx "response.txt"] ∧
      ef.File = responseFile ∧ ef.buildTime = sampleFS.buildTime ∧ ef.content = helloBytes ∧
      ef.seekPtr = 0 ∧
      (∀ p : List UInt8, helloBytes.length ≤ p.length → (p.length : Int) < 2 ^ 63 →
        ∃ r : ReadResult, ef.Read p = some r ∧ r.n = (helloBytes.length : Int) ∧
          r.err = none ∧
          r.buf.take helloBytes.length = helloBytes ∧
          r.buf.drop helloBytes.length = p.drop helloBytes.length ∧
          r.file.seekPtr = (helloBytes.length : Int)) :=
  Open_existing_regular sampleFS "response.txt" responseFile
    { Name := "response.txt", Size := 5, Mode := 292, ModTime := 11, IsDir := false, Sys := 0 }
    helloBytes rfl rfl rfl rfl

/-- C3. When the primary open fails with an error `e` that is not a not-exist error,
`Open(name)` returns no handle and the error `e` itself, and the only path it opens on
the wrapped filesystem is the primary one: the fallback is not tried. -/
theorem Open_other_error_propagates (f : FallbackFS) (name : String) (e : GoError)
    (hfail : f.FS.Open (filepathJoin f.pfx name) = .error e)
    (hother : errorsIs e .ErrNotExist = false) :
    (f.Open name).result = .error e ∧
      (f.Open name).opened = [filepathJoin f.pfx name] := by
  rw [open_primary_other f name e hfail hother]
  exact ⟨rfl, rfl⟩

/-- In the sample bundle `assets/locked` fails with a permission error. -/
theorem Open_other_error_propagates_witness :
    (sampleFS.Open "locked").result = .error (permissionDenied "assets/locked") ∧
      (sampleFS.Open "locked").opened = [filepathJoin sampleFS.pfx "locked"] :=
  Open_other_error_propagates sampleFS "locked" (permissionDenied "assets/locked") rfl rfl

/-- C4. When the primary open fails with a not-exist error `e1` and the open of the
stored fallback path fails with `e2`, `Open(name)` returns no handle and the error `e2`,
after opening the primary path and then the fallback path. -/
theorem Open_fallback_error_propagates (f : FallbackFS) (name : String) (e1 e2 : GoError)
    (hmiss : f.FS.Open (filepathJoin f.pfx name) = .error e1)
    (hne : errorsIs e1 .ErrNotExist = true)
    (hfb : f.FS.Open f.fallback = .error e2) :
    (f.Open name).result = .error e2 ∧
      (f.Open name).opened = [filepathJoin f.pfx name, f.fallback] := by
  rw [open_primary_missing f name e1 hmiss hne, hfb]
  exact ⟨rfl, rfl⟩

/-- With a fallback document that is not in the sample bundle, a missing path reports
the fallback's error, which names the fallback path, not the primary one. -/
theorem Open_fallback_error_propagates_witness :
    ((brokenFallbackFS.Open "nope").result = .error (notFound "assets/missing.html") ∧
      (brokenFallbackFS.Open "nope").opened
        = [filepathJoin brokenFallbackFS.pfx "nope", brokenFallbackFS.fallback]) ∧
      notFound "assets/missing.html" ≠ notFound "assets/nope" :=
  ⟨Open_fallback_error_propagates brokenFallbackFS "nope" (notFound "assets/nope")
    (notFound "assets/missing.html") rfl rfl rfl, by decide⟩

/-- C5. When `Join(prefix, name)` opens as a handle whose stat reports a directory,
`Open(name)` returns that very handle, not a wrapper, after opening that one path; the
metadata its `Stat` returns is the wrapped filesystem's own, so it reports a directory and
the underlying modification time whatever the build time is. -/
theorem Open_directory_passthrough (f : FallbackFS) (name : String) (file : File)
    (st : FileInfo)
    (hopen : f.FS.Open (filepathJoin f.pfx name) = .ok file)
    (hstat : file.Stat = .ok st) (hdir : st.IsDir = true) :
    (f.Open name).result = .ok (.file file) ∧
      (f.Open name).opened = [filepathJoin f.pfx name] ∧
      ∃ i : Info, (Handle.file file).Stat = .ok i ∧ i = .plain st ∧ i.IsDir = true ∧
        i.ModTime = st.ModTime := by
  rw [open_primary_ok f name file hopen]
  refine ⟨wrapOpened_dir f.buildTime file st hstat hdir, rfl, .plain st, ?_, rfl, hdir, rfl⟩
  simp only [Handle.Stat, hstat]
  rfl

/-- In the sample bundle the empty name resolves to the directory `assets`, whose
modification time 33 is reported although the build time is 1000. -/
theorem Open_directory_passthrough_witness :
    ((sampleFS.Open "").result = .ok (.file assetsDir) ∧
      (sampleFS.Open "").opened = [filepathJoin sampleFS.pfx ""] ∧
      ∃ i : Info, (Handle.file assetsDir).Stat = .ok i ∧
        i = .plain { Name := "assets", Size := 0, Mode := 2147484013, ModTime := 33,
                      IsDir := true, Sys := 0 } ∧
        i.IsDir = true ∧
        i.ModTime = (FileInfo.mk "assets" 0 2147484013 33 true 0).ModTime) ∧
      (FileInfo.mk "assets" 0 2147484013 33 true 0).ModTime ≠ sampleFS.buildTime :=
  ⟨Open_directory_passthrough sampleFS "" assetsDir
    { Name := "assets", Size := 0, Mode := 2147484013, ModTime := 33, IsDir := true, Sys := 0 }
    rfl rfl rfl, by decide⟩

/-- The metadata of a handle `Open` returned that reports a regular file: the build time
as modification time, everything else as the stat of the handle opened on the wrapped
filesystem. -/
theorem open_regular_info (f : FallbackFS) (name : String) (h : Handle) (i : Info)
    (ho : (f.Open name).result = .ok h) (hs : h.Stat = .ok i) (hr : i.IsDir = false) :
    i.ModTime = f.buildTime ∧
      ∃ (path : String) (file : File) (st : FileInfo),
        path ∈ (f.Open name).opened ∧ f.FS.Open path = .ok file ∧ file.Stat = .ok st ∧
        i.sameAttributes st := by
  obtain ⟨path, file, st, hmem, hopen, hstat, hc⟩ := open_ok_cases f name h ho
  rcases hc with ⟨hd, rfl⟩ | ⟨_, _, rfl⟩
  · simp only [Handle.Stat, hstat] at hs
    have hi : i = .plain st := by
      simp only [Except.map, Except.ok.injEq] at hs
      exact hs.symm
    rw [hi] at hr
    simp only [Info.IsDir] at hr
    rw [hd] at hr
    exact absurd hr (by decide)
  · simp only [Handle.Stat, EmbeddedFile.Stat, hstat, Except.map, Except.ok.injEq] at hs
    subst hs
    exact ⟨rfl, path, file, st, hmem, hopen, hstat, rfl, rfl, rfl, rfl, rfl⟩

/-- C6. For a `FallbackFS` constructed with build time `T` and any two names whose
`Open` returns handles whose `Stat` succeeds and reports regular files, both report the
modification time `T`, hence equal modification times, and each reports name, size, mode,
directory flag and data source exactly as the stat of the handle that was opened for it
on the wrapped filesystem. -/
theorem Open_regular_reports_buildTime (fs : FS) (pfx fallback : String) (T : Int)
    (name1 name2 : String) (h1 h2 : Handle) (i1 i2 : Info)
    (ho1 : ((NewFallbackFS fs pfx fallback T).Open name1).result = .ok h1)
    (hs1 : h1.Stat = .ok i1) (hr1 : i1.IsDir = false)
    (ho2 : ((NewFallbackFS fs pfx fallback T).Open name2).result = .ok h2)
    (hs2 : h2.Stat = .ok i2) (hr2 : i2.IsDir = false) :
    i1.ModTime = T ∧ i2.ModTime = T ∧ i1.ModTime = i2.ModTime ∧
      (∃ (path : String) (file : File) (st : FileInfo),
        path ∈ ((NewFallbackFS fs pfx fallback T).Open name1).opened ∧
        fs.Open path = .ok file ∧ file.Stat = .ok st ∧ i1.sameAttributes st) ∧
      (∃ (path : String) (file : File) (st : FileInfo),
        path ∈ ((NewFallbackFS fs pfx fallback T).Open name2).opened ∧
        fs.Open path = .ok file ∧ file.Stat = .ok st ∧ i2.sameAttributes st) := by
  obtain ⟨hm1, hp1⟩ := open_regular_info _ name1 h1 i1 ho1 hs1 hr1
  obtain ⟨hm2, hp2⟩ := open_regular_info _ name2 h2 i2 ho2 hs2 hr2
  exact ⟨hm1, hm2, hm1.trans hm2.symm, hp1, hp2⟩

/-- In the sample bundle `response.txt` (modified at 11) and the fallback document served
for `missing/path` (modified at 22) both report the build time 1000. -/
theorem Open_regular_reports_buildTime_witness :
    (Info.embedded ⟨⟨"response.txt", 5, 292, 11, false, 0⟩, 1000⟩).ModTime = 1000 ∧
      (Info.embedded ⟨⟨"index.html", 6, 292, 22, false, 0⟩, 1000⟩).ModTime = 1000 ∧
      (Info.embedded ⟨⟨"response.txt", 5, 292, 11, false, 0⟩, 1000⟩).ModTime
        = (Info.embedded ⟨⟨"index.html", 6, 292, 22, false, 0⟩, 1000⟩).ModTime ∧
      (∃ (path : String) (file : File) (st : FileInfo),
        path ∈ ((NewFallbackFS bundleFS "assets" "index.html" 1000).Open "response.txt").opened ∧
        bundleFS.Open path = .ok file ∧ file.Stat = .ok st ∧
        (Info.embedded ⟨⟨"response.txt", 5, 292, 11, false, 0⟩, 1000⟩).sameAttributes st) ∧
      (∃ (path : String) (file : File) (st : FileInfo),
        path ∈ ((NewFallbackFS bundleFS "assets" "index.html" 1000).Open "missing/path").opened ∧
        bundleFS.Open path = .ok file ∧ file.Stat = .ok st ∧
        (Info.embedded ⟨⟨"index.html", 6, 292, 22, false, 0⟩, 1000⟩).sameAttributes st) :=
  Open_regular_reports_buildTime bundleFS "assets" "index.html" 1000
    "response.txt" "missing/path"
    (.embedded ⟨responseFile, 1000, 0, helloBytes⟩) (.embedded ⟨indexFile, 1000, 0, htmlBytes⟩)
    (.embedded ⟨⟨"response.txt", 5, 292, 11, false, 0⟩, 1000⟩)
    (.embedded ⟨⟨"index.html", 6, 292, 22, false, 0⟩, 1000⟩)
    rfl rfl rfl rfl rfl rfl

/-! ## Further properties of Seek and Read -/

/-- A cursor-relative seek whose sum `p + offset` fits an `int64` lands on that sum
clamped into `[0, L]`. -/
theorem seekUnlocked_current_pos_of_fit (f : EmbeddedFile) (offset : Int)
    (hfit : isInt64 (f.seekPtr + offset)) :
    (f.seekUnlocked offset SeekCurrent).pos
      = max 0 (min (f.content.length : Int) (f.seekPtr + offset)) := by
  have hw := wrapInt64_of_isInt64 _ hfit
  simp only [EmbeddedFile.seekUnlocked, SeekStart, SeekCurrent, SeekEnd, hw]
  simp only [show ((1 : Int) = 0) = False from by simp, if_false, if_true]
  split_ifs <;> omega

/-- C11. For a wrapper with cursor 0 and buffers of `a` and `b` bytes, with `a + b` a
Go slice length (below `2^63`), reading into the first and then into the second returns,
as do both reads, and so does one read into a buffer of `a + b` bytes on the same
wrapper; the bytes received by the two reads, concatenated, are the bytes received by the
single read, the counts add up, and both ways leave the same wrapper, cursor included. -/
theorem Read_twice_eq_Read_once (f : EmbeddedFile) (p1 p2 p3 : List UInt8)
    (hs : f.seekPtr = 0) (hlen : p3.length = p1.length + p2.length)
    (hfit : (p3.length : Int) < 2 ^ 63) :
    ∃ r1 r2 r3 : ReadResult,
      f.Read p1 = some r1 ∧ r1.file.Read p2 = some r2 ∧ f.Read p3 = some r3 ∧
      r1.buf.take r1.n.toNat ++ r2.buf.take r2.n.toNat = r3.buf.take r3.n.toNat ∧
      r1.n + r2.n = r3.n ∧
      r2.file.seekPtr = r3.file.seekPtr ∧ r2.file = r3.file := by
  have h0 : 0 ≤ f.seekPtr := by rw [hs]
  have hL : f.seekPtr ≤ (f.content.length : Int) := by rw [hs]; omega
  have hf1 : f.seekPtr + (p1.length : Int) < 2 ^ 63 := by rw [hs]; omega
  have hf3 : f.seekPtr + (p3.length : Int) < 2 ^ 63 := by rw [hs]; omega
  have e1 := Read_eq f p1 h0 hL hf1
  have e3 := Read_eq f p3 h0 hL hf3
  have hk1 : readCount f p1.length = min p1.length f.content.length := by
    simp only [readCount, hs, Int.toNat_zero, Nat.sub_zero]
  have hk3 : readCount f p3.length = min p3.length f.content.length := by
    simp only [readCount, hs, Int.toNat_zero, Nat.sub_zero]
  obtain ⟨g, hg⟩ : ∃ g : EmbeddedFile,
      g = { f with seekPtr := f.seekPtr + (readCount f p1.length : Int) } := ⟨_, rfl⟩
  have hgc : g.content = f.content := by rw [hg]
  have hgs : g.seekPtr = (readCount f p1.length : Int) := by rw [hg]; simp [hs]
  have hg0 : 0 ≤ g.seekPtr := by rw [hgs]; omega
  have hgL : g.seekPtr ≤ (g.content.length : Int) := by rw [hgs, hgc, hk1]; omega
  have hgf : g.seekPtr + (p2.length : Int) < 2 ^ 63 := by rw [hgs, hk1]; omega
  have e2 := Read_eq g p2 hg0 hgL hgf
  have hk2 : readCount g p2.length
      = min p2.length (f.content.length - min p1.length f.content.length) := by
    show min p2.length (g.content.length - g.seekPtr.toNat) = _
    rw [hgs, hgc, hk1, Int.toNat_ofNat]
  have hsum : readCount f p1.length + readCount g p2.length = readCount f p3.length := by
    rw [hk1, hk2, hk3]; omega
  rw [← hg] at e1
  refine ⟨_, _, _, e1, e2, e3, ?_, ?_, ?_, ?_⟩
  · simp only [Int.toNat_ofNat]
    have t1 : readCount f p1.length
        ≤ ((f.content.drop f.seekPtr.toNat).take (readCount f p1.length)).length := by
      rw [List.length_take, List.length_drop, hs]; simp only [Int.toNat_zero]; omega
    have t2 : readCount g p2.length
        ≤ ((g.content.drop g.seekPtr.toNat).take (readCount g p2.length)).length := by
      rw [List.length_take, List.length_drop, hgs, hgc]; omega
    have t3 : readCount f p3.length
        ≤ ((f.content.drop f.seekPtr.toNat).take (readCount f p3.length)).length := by
      rw [List.length_take, List.length_drop, hs]; simp only [Int.toNat_zero]; omega
    rw [List.take_append_of_le_length t1, List.take_append_of_le_length t2,
      List.take_append_of_le_length t3, List.take_take, List.take_take, List.take_take,
      Nat.min_self, Nat.min_self, Nat.min_self, hgs, hgc, hs, ← hsum]
    simp only [Int.toNat_zero, List.drop_zero, Int.toNat_ofNat]
    rw [List.take_add]
  · show ((readCount f p1.length : Nat) : Int) + ((readCount g p2.length : Nat) : Int)
      = ((readCount f p3.length : Nat) : Int)
    omega
  · show g.seekPtr + ((readCount g p2.length : Nat) : Int)
      = f.seekPtr + ((readCount f p3.length : Nat) : Int)
    rw [hgs, hs]; omega
  · have hptr : g.seekPtr + ((readCount g p2.length : Nat) : Int)
        = f.seekPtr + ((readCount f p3.length : Nat) : Int) := by
      rw [hgs, hs]; omega
    rw [hptr, hg]

/-- Two reads of 2 and 5 bytes against one read of 7 bytes on the five bytes of
`hello`. -/
theorem Read_twice_eq_Read_once_witness :
    ∃ r1 r2 r3 : ReadResult,
      (helloWrapper 0).Read [0, 0] = some r1 ∧ r1.file.Read [0, 0, 0, 0, 0] = some r2 ∧
      (helloWrapper 0).Read [0, 0, 0, 0, 0, 0, 0] = some r3 ∧
      r1.buf.take r1.n.toNat ++ r2.buf.take r2.n.toNat = r3.buf.take r3.n.toNat ∧
      r1.n + r2.n = r3.n ∧
      r2.file.seekPtr = r3.file.seekPtr ∧ r2.file = r3.file :=
  Read_twice_eq_Read_once (helloWrapper 0) [0, 0] [0, 0, 0, 0, 0] [0, 0, 0, 0, 0, 0, 0]
    rfl rfl (by decide)

/-- A `Read` that returns leaves the wrapper that its internal forward seek produced. -/
theorem Read_file_eq (f : EmbeddedFile) (p : List UInt8) (r : ReadResult)
    (h : f.Read p = some r) :
    r.file = (f.seekUnlocked (p.length : Int) SeekCurrent).file := by
  unfold EmbeddedFile.Read at h
  simp only [seekUnlocked_err] at h
  split at h
  · exact absurd h (by simp)
  · simp only [Option.some.injEq] at h
    rw [← h]

/-- Whatever the wrapper and the call, the call leaves the cursor inside the content. -/
theorem after_cursorInRange (g : EmbeddedFile) (c : Call) : (g.after c).cursorInRange := by
  cases c with
  | Seek offset whence => exact seekUnlocked_pos_range g offset whence
  | Read p =>
    cases hr : g.Read p with
    | none =>
      simp only [EmbeddedFile.after, hr]
      exact seekUnlocked_pos_range g (p.length : Int) SeekCurrent
    | some r =>
      simp only [EmbeddedFile.after, hr, Read_file_eq g p r hr]
      exact seekUnlocked_pos_range g (p.length : Int) SeekCurrent

/-- No call changes the content. -/
theorem after_content (g : EmbeddedFile) (c : Call) : (g.after c).content = g.content := by
  cases c with
  | Seek offset whence => rfl
  | Read p =>
    cases hr : g.Read p with
    | none => simp only [EmbeddedFile.after, hr, seekUnlocked_content]
    | some r =>
      simp only [EmbeddedFile.after, hr, Read_file_eq g p r hr, seekUnlocked_content]

theorem afterAll_cursorInRange (calls : List Call) (g : EmbeddedFile)
    (hg : g.cursorInRange) : (g.afterAll calls).cursorInRange := by
  induction calls generalizing g with
  | nil => exact hg
  | cons c rest ih => exact ih (g.after c) (after_cursorInRange g c)

theorem afterAll_content (calls : List Call) (g : EmbeddedFile) :
    (g.afterAll calls).content = g.content := by
  induction calls generalizing g with
  | nil => rfl
  | cons c rest ih =>
    show ((g.after c).afterAll rest).content = g.content
    rw [ih (g.after c), after_content]

/-- C12. `0 <= seekPtr <= len(content)` holds for a wrapper right after construction,
where the cursor is 0; every `Seek` and every `Read`, whatever their arguments and the
wrapper they start from, leave a wrapper for which it holds; hence it holds after any
sequence of such calls on a constructed wrapper, whose content stays the one read at
construction. -/
theorem cursorInRange_always (file : File) (T : Int) (ef : EmbeddedFile)
    (calls : List Call) (hnew : NewEmbeddedFile file T = .ok ef) :
    (ef.seekPtr = 0 ∧ ef.cursorInRange) ∧
      (∀ (g : EmbeddedFile) (offset whence : Int), (g.Seek offset whence).file.cursorInRange) ∧
      (∀ (g : EmbeddedFile) (p : List UInt8) (r : ReadResult),
        g.Read p = some r → r.file.cursorInRange) ∧
      (∀ (g : EmbeddedFile) (c : Call), (g.after c).cursorInRange) ∧
      (ef.afterAll calls).cursorInRange ∧
      (ef.afterAll calls).content = ef.content := by
  have hptr : ef.seekPtr = 0 := by
    unfold NewEmbeddedFile ioReadAll at hnew
    cases hr : file.readErr with
    | some e => simp [hr] at hnew
    | none =>
      simp only [hr, Except.ok.injEq] at hnew
      rw [← hnew]
  have hin : ef.cursorInRange := by
    unfold EmbeddedFile.cursorInRange
    rw [hptr]
    omega
  refine ⟨⟨hptr, hin⟩, fun g offset whence => seekUnlocked_pos_range g offset whence, ?_,
    after_cursorInRange, afterAll_cursorInRange calls ef hin, afterAll_content calls ef⟩
  intro g p r hr
  rw [Read_file_eq g p r hr]
  exact seekUnlocked_pos_range g (p.length : Int) SeekCurrent

/-- The wrapper built around `response.txt`, then a seek far before the start, a read of
three bytes, a seek with the largest offset and a seek from the end. -/
theorem cursorInRange_always_witness :
    ((helloWrapper 0).seekPtr = 0 ∧ (helloWrapper 0).cursorInRange) ∧
      (∀ (g : EmbeddedFile) (offset whence : Int), (g.Seek offset whence).file.cursorInRange) ∧
      (∀ (g : EmbeddedFile) (p : List UInt8) (r : ReadResult),
        g.Read p = some r → r.file.cursorInRange) ∧
      (∀ (g : EmbeddedFile) (c : Call), (g.after c).cursorInRange) ∧
      ((helloWrapper 0).afterAll
        [.Seek (-7) SeekCurrent, .Read [0, 0, 0], .Seek (2 ^ 63 - 1) SeekCurrent,
          .Seek 1 SeekEnd]).cursorInRange ∧
      ((helloWrapper 0).afterAll
        [.Seek (-7) SeekCurrent, .Read [0, 0, 0], .Seek (2 ^ 63 - 1) SeekCurrent,
          .Seek 1 SeekEnd]).content = (helloWrapper 0).content :=
  cursorInRange_always responseFile 1000 (helloWrapper 0)
    [.Seek (-7) SeekCurrent, .Read [0, 0, 0], .Seek (2 ^ 63 - 1) SeekCurrent, .Seek 1 SeekEnd]
    rfl

/-- C13 (failing input). On the five bytes of `hello` with the cursor at 3, which is in
range, `Seek(2^63 - 1, SeekCurrent)`, the largest `int64` offset, would move the cursor
past the end, and `p + offset` clamped into `[0, L]` over the integers is 5; the code
returns 0, because the addition `3 + (2^63 - 1)` wraps around to a negative `int64` before
the clamp. An offset that moves the cursor before the start does return 0. -/
theorem Seek_current_wraps_at_max_offset :
    (helloWrapper 3).cursorInRange ∧ isInt64 (2 ^ 63 - 1) ∧
      (2 ^ 63 - 1 : Int) > ((helloWrapper 3).content.length : Int) - (helloWrapper 3).seekPtr ∧
      ((helloWrapper 3).Seek (2 ^ 63 - 1) SeekCurrent).pos = 0 ∧
      max (0 : Int) (min ((helloWrapper 3).content.length : Int)
        ((helloWrapper 3).seekPtr + (2 ^ 63 - 1))) = 5 ∧
      ((helloWrapper 3).Seek 4 SeekCurrent).pos = 5 ∧
      ((helloWrapper 3).Seek (-4) SeekCurrent).pos = 0 := by
  refine ⟨by decide, by decide, by decide, by decide, by decide, by decide, by decide⟩

/-- C19. For a wrapper with cursor `p` in `[0, L]` and a buffer of length `n` with
`p + n <= maxInt64`, the bounds of the slice expression of `Read`, `start` (the cursor
before) and `end` (the cursor after the internal forward seek), satisfy
`0 <= start <= end <= L`; the internal seek returns a nil error, the slice expression
does not panic, and `Read` returns. -/
theorem Read_window_in_bounds (f : EmbeddedFile) (p : List UInt8)
    (h0 : 0 ≤ f.seekPtr) (hL : f.seekPtr ≤ (f.content.length : Int))
    (hfit : f.seekPtr + (p.length : Int) ≤ 2 ^ 63 - 1) :
    0 ≤ f.seekPtr ∧
      f.seekPtr ≤ (f.seekUnlocked (p.length : Int) SeekCurrent).file.seekPtr ∧
      (f.seekUnlocked (p.length : Int) SeekCurrent).file.seekPtr ≤ (f.content.length : Int) ∧
      (f.seekUnlocked (p.length : Int) SeekCurrent).err = none ∧
      (sliceBytes (f.seekUnlocked (p.length : Int) SeekCurrent).file.content f.seekPtr
        (f.seekUnlocked (p.length : Int) SeekCurrent).file.seekPtr).isSome = true ∧
      (f.Read p).isSome = true := by
  have hlt : f.seekPtr + (p.length : Int) < 2 ^ 63 := by omega
  have hpos := seekUnlocked_current_pos f p.length h0 hlt
  have hptr : (f.seekUnlocked (p.length : Int) SeekCurrent).file.seekPtr
      = min (f.seekPtr + (p.length : Int)) (f.content.length : Int) := by
    rw [seekUnlocked_seekPtr, hpos]
  have hlo : f.seekPtr ≤ (f.seekUnlocked (p.length : Int) SeekCurrent).file.seekPtr := by
    rw [hptr]; omega
  have hhi : (f.seekUnlocked (p.length : Int) SeekCurrent).file.seekPtr
      ≤ (f.content.length : Int) := by
    rw [hptr]; omega
  refine ⟨h0, hlo, hhi, rfl, ?_, ?_⟩
  · rw [seekUnlocked_content]
    unfold sliceBytes
    rw [if_pos ⟨h0, hlo, hhi⟩]
    rfl
  · rw [Read_eq f p h0 hL hlt]
    rfl

/-- The window of a ten-byte read at cursor 3 of the five bytes of `hello`. -/
theorem Read_window_in_bounds_witness :
    0 ≤ (helloWrapper 3).seekPtr ∧
      (helloWrapper 3).seekPtr
        ≤ ((helloWrapper 3).seekUnlocked ((List.replicate 10 (0 : UInt8)).length : Int)
            SeekCurrent).file.seekPtr ∧
      ((helloWrapper 3).seekUnlocked ((List.replicate 10 (0 : UInt8)).length : Int)
          SeekCurrent).file.seekPtr ≤ ((helloWrapper 3).content.length : Int) ∧
      ((helloWrapper 3).seekUnlocked ((List.replicate 10 (0 : UInt8)).length : Int)
          SeekCurrent).err = none ∧
      (sliceBytes ((helloWrapper 3).seekUnlocked ((List.replicate 10 (0 : UInt8)).length : Int)
          SeekCurrent).file.content (helloWrapper 3).seekPtr
        ((helloWrapper 3).seekUnlocked ((List.replicate 10 (0 : UInt8)).length : Int)
          SeekCurrent).file.seekPtr).isSome = true ∧
      ((helloWrapper 3).Read (List.replicate 10 0)).isSome = true :=
  Read_window_in_bounds (helloWrapper 3) (List.replicate 10 0) (by decide) (by decide)
    (by decide)

/-- C20. For every wrapper, every offset and every whence value other than `SeekStart`,
`SeekCurrent` and `SeekEnd`, `Seek` returns position 0 with a nil error and leaves the
wrapper with its cursor at 0 and everything else as it was. -/
theorem Seek_unknown_whence_resets (f : EmbeddedFile) (offset whence : Int)
    (h0 : whence ≠ SeekStart) (h1 : whence ≠ SeekCurrent) (h2 : whence ≠ SeekEnd) :
    f.Seek offset whence = { pos := 0, err := none, file := { f with seekPtr := 0 } } := by
  have hlen : ¬ ((0 : Int) > (f.content.length : Int)) := by omega
  simp only [EmbeddedFile.Seek, EmbeddedFile.seekUnlocked, if_neg h0, if_neg h1, if_neg h2,
    lt_irrefl, if_false, if_neg hlen]

/-- A seek with whence 3 on the five bytes of `hello` with the cursor at 4. -/
theorem Seek_unknown_whence_resets_witness :
    (helloWrapper 4).Seek 2 3
      = { pos := 0, err := none, file := { helloWrapper 4 with seekPtr := 0 } } :=
  Seek_unknown_whence_resets (helloWrapper 4) 2 3 (by decide) (by decide) (by decide)

/-! ## Failures while a handle is wrapped -/

theorem errorsIs_self (e : GoError) : errorsIs e e = true := by
  cases e <;> simp [errorsIs]

theorem errorsIs_wrapf (context : String) (e target : GoError)
    (h : errorsIs e target = true) : errorsIs (.wrapf context e) target = true := by
  simp [errorsIs, h]

theorem wrapf_ne_self (context : String) (e : GoError) : GoError.wrapf context e ≠ e := by
  intro h
  have hsz := congrArg sizeOf h
  simp only [GoError.wrapf.sizeOf_spec] at hsz
  omega

theorem readFailure_ne (e : GoError) : readFailure e ≠ e := by
  intro h
  have hsz := congrArg sizeOf h
  simp only [readFailure, GoError.wrapf.sizeOf_spec] at hsz
  omega

theorem wrapOpened_read_failure (T : Int) (file : File) (st : FileInfo) (e : GoError)
    (hs : file.Stat = .ok st) (hd : st.IsDir = false) (hr : (ioReadAll file).2 = some e) :
    wrapOpened T file = .error (readFailure e) := by
  have hre : file.readErr = some e := hr
  simp [wrapOpened, hs, hd, NewEmbeddedFile, ioReadAll, hre, readFailure]

theorem wrapOpened_stat_failure (T : Int) (file : File) (e : GoError)
    (hs : file.Stat = .error e) :
    wrapOpened T file = .error (.wrapf "stating file: " e) := by
  simp [wrapOpened, hs]

/-- C15. For a handle that reports a regular file and whose content read fails with `e`:
when it is what the primary open yields, `Open` returns no handle and `e` wrapped twice
with context, having opened the primary path only; when the primary open fails with a
not-exist error and the handle is what the fallback open yields, `Open` returns the same
error, having opened the primary and the fallback path and nothing after them. The
returned error is not `e` itself, its unwrap chain leads to `e` in two steps, and
`errors.Is` finds `e` in it. -/
theorem Open_read_failure_is_wrapped (f : FallbackFS) (name : String) (file : File)
    (st : FileInfo) (e : GoError)
    (hstat : file.Stat = .ok st) (hreg : st.IsDir = false)
    (hread : (ioReadAll file).2 = some e) :
    (f.FS.Open (filepathJoin f.pfx name) = .ok file →
        (f.Open name).result = .error (readFailure e) ∧
        (f.Open name).opened = [filepathJoin f.pfx name]) ∧
      (∀ e1 : GoError, f.FS.Open (filepathJoin f.pfx name) = .error e1 →
        errorsIs e1 .ErrNotExist = true → f.FS.Open f.fallback = .ok file →
        (f.Open name).result = .error (readFailure e) ∧
        (f.Open name).opened = [filepathJoin f.pfx name, f.fallback]) ∧
      readFailure e ≠ e ∧
      ((readFailure e).Unwrap.bind GoError.Unwrap) = some e ∧
      errorsIs (readFailure e) e = true := by
  refine ⟨?_, ?_, readFailure_ne e, rfl, ?_⟩
  · intro hopen
    rw [open_primary_ok f name file hopen]
    exact ⟨wrapOpened_read_failure f.buildTime file st e hstat hreg hread, rfl⟩
  · intro e1 hmiss hne hfb
    rw [open_primary_missing f name e1 hmiss hne, hfb]
    exact ⟨wrapOpened_read_failure f.buildTime file st e hstat hreg hread, rfl⟩
  · exact errorsIs_wrapf _ _ _ (errorsIs_wrapf _ _ _ (errorsIs_self e))

/-- In the faulty bundle the read of `assets/app.js` breaks off, and so does the read of
the fallback document served for `missing/path`; no open follows either failure. -/
theorem Open_read_failure_is_wrapped_witness :
    ((faultySampleFS.Open "app.js").result = .error (readFailure (.other 5)) ∧
        (faultySampleFS.Open "app.js").opened = [filepathJoin faultySampleFS.pfx "app.js"]) ∧
      ((faultySampleFS.Open "missing/path").result = .error (readFailure (.other 5)) ∧
        (faultySampleFS.Open "missing/path").opened
          = [filepathJoin faultySampleFS.pfx "missing/path", faultySampleFS.fallback]) ∧
      readFailure (.other 5) ≠ .other 5 :=
  ⟨(Open_read_failure_is_wrapped faultySampleFS "app.js" truncatedFile
      ⟨"app.js", 9, 292, 44, false, 0⟩ (.other 5) rfl rfl rfl).1 rfl,
    (Open_read_failure_is_wrapped faultySampleFS "missing/path" truncatedFile
      ⟨"app.js", 9, 292, 44, false, 0⟩ (.other 5) rfl rfl rfl).2.1
      (notFound "assets/missing/path") rfl rfl rfl,
    (Open_read_failure_is_wrapped faultySampleFS "app.js" truncatedFile
      ⟨"app.js", 9, 292, 44, false, 0⟩ (.other 5) rfl rfl rfl).2.2.1⟩

/-- C16 (counterexample). In the faulty bundle the stat of the handle opened for
`assets/stale` fails with the error `other 116`; `Open("stale")` does not return that
error but the error wrapped with the context `stating file: `. -/
theorem Open_stat_failure_not_unchanged :
    faultyFS.Open (filepathJoin faultySampleFS.pfx "stale") = .ok staleFile ∧
      staleFile.Stat = .error (.other 116) ∧
      (faultySampleFS.Open "stale").result = .error (.wrapf "stating file: " (.other 116)) ∧
      ¬ ((faultySampleFS.Open "stale").result = .error (.other 116)) := by
  refine ⟨rfl, rfl, rfl, ?_⟩
  intro h
  have h2 : (Except.error (GoError.wrapf "stating file: " (.other 116)) : Except GoError Handle)
      = .error (.other 116) := h
  simp only [Except.error.injEq] at h2
  exact absurd h2 (by decide)

/-- C16 (amended). When the stat of the wrapped handle fails with `e`, `EmbeddedFile.Stat`
returns no metadata and `e` itself; a stat failure on the freshly opened handle inside
`Open`, whether the primary or the fallback open yielded the handle, is returned wrapped
with the context `stating file: `, an error that is not `e` but unwraps to `e`. -/
theorem Stat_failure_surfaces (f : FallbackFS) (name : String) (file : File) (e : GoError)
    (hstat : file.Stat = .error e) :
    (∀ ef : EmbeddedFile, ef.File = file → ef.Stat = .error e) ∧
      (f.FS.Open (filepathJoin f.pfx name) = .ok file →
        (f.Open name).result = .error (.wrapf "stating file: " e)) ∧
      (∀ e1 : GoError, f.FS.Open (filepathJoin f.pfx name) = .error e1 →
        errorsIs e1 .ErrNotExist = true → f.FS.Open f.fallback = .ok file →
        (f.Open name).result = .error (.wrapf "stating file: " e)) ∧
      GoError.wrapf "stating file: " e ≠ e ∧
      (GoError.wrapf "stating file: " e).Unwrap = some e ∧
      errorsIs (.wrapf "stating file: " e) e = true := by
  refine ⟨?_, ?_, ?_, wrapf_ne_self _ e, rfl, errorsIs_wrapf _ _ _ (errorsIs_self e)⟩
  · intro ef hef
    simp only [EmbeddedFile.Stat, hef, hstat]
  · intro hopen
    rw [open_primary_ok f name file hopen]
    exact wrapOpened_stat_failure f.buildTime file e hstat
  · intro e1 hmiss hne hfb
    rw [open_primary_missing f name e1 hmiss hne, hfb]
    exact wrapOpened_stat_failure f.buildTime file e hstat

/-- In the faulty bundle a wrapper around the stale handle reports the stat error itself,
and `Open("stale")` reports it wrapped. -/
theorem Stat_failure_surfaces_witness :
    (EmbeddedFile.mk staleFile 1000 0 []).Stat = .error (.other 116) ∧
      (faultySampleFS.Open "stale").result = .error (.wrapf "stating file: " (.other 116)) :=
  ⟨(Stat_failure_surfaces faultySampleFS "stale" staleFile (.other 116) rfl).1 _ rfl,
    (Stat_failure_surfaces faultySampleFS "stale" staleFile (.other 116) rfl).2.1 rfl⟩

/-! ## The stored fallback path -/

theorem cleanChars_eq_renderPath (path : List Char) :
    cleanChars path = renderPath (rootedChars path) (cleanElems path) := by
  cases path with
  | nil => decide
  | cons c cs => simp [cleanChars, renderPath, rootedChars, cleanElems]

theorem splitSep_ne_nil (path : List Char) : splitSep path ≠ [] := by
  cases path with
  | nil => simp [splitSep]
  | cons c cs =>
    unfold splitSep
    split_ifs
    · simp
    · split <;> simp

theorem splitSep_append (a b : List Char) :
    splitSep (a ++ '/' :: b) = splitSep a ++ splitSep b := by
  induction a with
  | nil => simp [splitSep]
  | cons c cs ih =>
    by_cases hc : c = '/'
    · simp [splitSep, hc, ih]
    · have hne := splitSep_ne_nil cs
      cases hcs : splitSep cs with
      | nil => exact absurd hcs hne
      | cons x xs =>
        rw [List.cons_append]
        simp only [splitSep, if_neg hc]
        rw [ih, hcs]
        rfl

/-- Elements other than `..` never remove what has been kept. -/
theorem foldl_cleanStep_keeps (rooted : Bool) (es : List (List Char))
    (hdd : ['.', '.'] ∉ es) (out : List (List Char)) :
    ∃ new : List (List Char), es.foldl (cleanStep rooted) out = new ++ out := by
  induction es generalizing out with
  | nil => exact ⟨[], rfl⟩
  | cons e rest ih =>
    have he : e ≠ ['.', '.'] := fun h => hdd (by simp [h])
    have hrest : ['.', '.'] ∉ rest := fun h => hdd (List.mem_cons_of_mem _ h)
    have hstep : cleanStep rooted out e = out ∨ cleanStep rooted out e = e :: out := by
      unfold cleanStep
      split_ifs
      · exact Or.inl rfl
      · exact Or.inr rfl
    rcases hstep with h | h
    · rw [List.foldl_cons, h]
      exact ih hrest out
    · rw [List.foldl_cons, h]
      obtain ⟨new, hnew⟩ := ih hrest (e :: out)
      exact ⟨new ++ [e], by rw [hnew]; simp⟩

/-- A prefix joined with a name that has no `..` element gives a path under the cleaned
prefix; with the empty prefix the name has to be relative and not empty. -/
theorem filepathJoin_underPrefix (pfx name : String)
    (hcase : pfx ≠ "" ∨ (name ≠ "" ∧ rootedChars name.data = false))
    (hdd : ['.', '.'] ∉ splitSep name.data) : underPrefix pfx (filepathJoin pfx name) := by
  by_cases hp : pfx = ""
  · rcases hcase with h | ⟨hn, hrel⟩
    · exact absurd hp h
    · refine ⟨cleanElems name.data, ?_⟩
      have hjoin : filepathJoin pfx name = String.mk (cleanChars name.data) := by
        simp only [filepathJoin, filepathClean, hp, ne_eq, not_true_eq_false, if_false,
          if_pos hn]
      rw [hjoin, cleanChars_eq_renderPath, hrel, hp]
      rfl
  · have hdata : pfx.data ≠ [] := fun h => hp (String.ext h)
    have hroot : rootedChars (pfx.data ++ '/' :: name.data) = rootedChars pfx.data := by
      cases hpd : pfx.data with
      | nil => exact absurd hpd hdata
      | cons c cs => rfl
    obtain ⟨new, hnew⟩ := foldl_cleanStep_keeps (rootedChars pfx.data) (splitSep name.data)
      hdd ((splitSep pfx.data).foldl (cleanStep (rootedChars pfx.data)) [])
    have helems : cleanElems (pfx.data ++ '/' :: name.data)
        = cleanElems pfx.data ++ new.reverse := by
      unfold cleanElems
      rw [hroot, splitSep_append, List.foldl_append, hnew, List.reverse_append]
    refine ⟨new.reverse, ?_⟩
    have hjoin : filepathJoin pfx name
        = String.mk (cleanChars (pfx.data ++ '/' :: name.data)) := by
      simp only [filepathJoin, filepathClean, ne_eq, hp, not_false_eq_true, if_true]
    rw [hjoin, cleanChars_eq_renderPath, hroot, helems]

/-- The first path `Open` opens on the wrapped filesystem is the primary one. -/
theorem open_opened_head (f : FallbackFS) (name : String) :
    (f.Open name).opened.head? = some (filepathJoin f.pfx name) := by
  cases hp : f.FS.Open (filepathJoin f.pfx name) with
  | ok file => rw [open_primary_ok f name file hp]; rfl
  | error e =>
    cases hne : errorsIs e .ErrNotExist with
    | false => rw [open_primary_other f name e hp hne]; rfl
    | true => rw [open_primary_missing f name e hp hne]; rfl

/-- C17 (counterexample). With the prefix `assets` and the relative fallback name
`../secret.html`, the stored fallback path is `secret.html`: it does not start with the
prefix, it is not the prefix's elements followed by further elements, and a lookup of a
missing name opens it outside `assets`. -/
theorem NewFallbackFS_fallback_escapes :
    (NewFallbackFS bundleFS "assets" "../secret.html" 1000).fallback = "secret.html" ∧
      ¬ ("assets".data <+: (NewFallbackFS bundleFS "assets" "../secret.html" 1000).fallback.data) ∧
      ¬ underPrefix "assets" (NewFallbackFS bundleFS "assets" "../secret.html" 1000).fallback ∧
      ((NewFallbackFS bundleFS "assets" "../secret.html" 1000).Open "missing").opened
        = ["assets/missing", "secret.html"] := by
  refine ⟨by decide, by decide, ?_, rfl⟩
  rintro ⟨rest, hrest⟩
  have hfb : (NewFallbackFS bundleFS "assets" "../secret.html" 1000).fallback.data
      = ['s', 'e', 'c', 'r', 'e', 't', '.', 'h', 't', 'm', 'l'] := by decide
  have hel : cleanElems "assets".data = [['a', 's', 's', 'e', 't', 's']] := by decide
  have hro : rootedChars "assets".data = false := by decide
  rw [hfb, hel, hro] at hrest
  have hhead := congrArg List.head? hrest
  cases rest with
  | nil => simp [renderPath, List.intercalate] at hhead
  | cons y ys => simp [renderPath, List.intercalate] at hhead

/-- C17 (amended). For every prefix and every relative fallback name without a `..`
element, the two not both empty, the fallback path `NewFallbackFS` stores is
`Join(prefix, fallback)`, the path a primary lookup of the fallback name opens first, and
it is prefix-qualified: it is written from the elements of the cleaned prefix followed by
further elements, as is the primary path of every such name. -/
theorem NewFallbackFS_fallback_qualified (fs : FS) (pfx fallback : String) (T : Int)
    (hrel : rootedChars fallback.data = false) (hne : pfx ≠ "" ∨ fallback ≠ "")
    (hdd : ['.', '.'] ∉ splitSep fallback.data) :
    (NewFallbackFS fs pfx fallback T).fallback = filepathJoin pfx fallback ∧
      ((NewFallbackFS fs pfx fallback T).Open fallback).opened.head?
        = some (NewFallbackFS fs pfx fallback T).fallback ∧
      underPrefix pfx (NewFallbackFS fs pfx fallback T).fallback ∧
      (filepathClean pfx).data = renderPath (rootedChars pfx.data) (cleanElems pfx.data) ∧
      (∀ name : String, rootedChars name.data = false → (pfx ≠ "" ∨ name ≠ "") →
        ['.', '.'] ∉ splitSep name.data →
        underPrefix pfx (filepathJoin (NewFallbackFS fs pfx fallback T).pfx name)) := by
  have hcase : ∀ name : String, rootedChars name.data = false → (pfx ≠ "" ∨ name ≠ "") →
      (pfx ≠ "" ∨ (name ≠ "" ∧ rootedChars name.data = false)) := by
    intro name hr hn
    rcases hn with h | h
    · exact Or.inl h
    · exact Or.inr ⟨h, hr⟩
  refine ⟨rfl, open_opened_head _ fallback,
    filepathJoin_underPrefix pfx fallback (hcase fallback hrel hne) hdd,
    cleanChars_eq_renderPath pfx.data, ?_⟩
  intro name hr hn hname
  exact filepathJoin_underPrefix pfx name (hcase name hr hn) hname

/-- The prefix `assets` with the default fallback document: the stored path is
`assets/index.html`. -/
theorem NewFallbackFS_fallback_qualified_witness :
    (sampleFS.fallback = filepathJoin "assets" "index.html" ∧
      (sampleFS.Open "index.html").opened.head? = some sampleFS.fallback ∧
      underPrefix "assets" sampleFS.fallback ∧
      (filepathClean "assets").data
        = renderPath (rootedChars "assets".data) (cleanElems "assets".data) ∧
      (∀ name : String, rootedChars name.data = false → ("assets" ≠ "" ∨ name ≠ "") →
        ['.', '.'] ∉ splitSep name.data →
        underPrefix "assets" (filepathJoin sampleFS.pfx name))) ∧
      sampleFS.fallback = "assets/index.html" :=
  ⟨NewFallbackFS_fallback_qualified bundleFS "assets" "index.html" 1000 (by decide)
    (by decide) (by decide), by decide⟩

/-- The default configuration, an empty prefix with the fallback document `index.html`,
stores the path `index.html`, which is under the empty prefix. -/
theorem NewFallbackFS_default_prefix :
    (NewFallbackFS rootBundleFS "" "index.html" 1000).fallback = "index.html" ∧
      underPrefix "" (NewFallbackFS rootBundleFS "" "index.html" 1000).fallback :=
  ⟨by decide, filepathJoin_underPrefix "" "index.html" (Or.inr ⟨by decide, by decide⟩)
    (by decide)⟩

/-! ## Scenario A -/

/-- C14 (counterexample). With the sample files in the directory `assets` of the bundle
and the prefix `assets`, `Open("assets/response.txt")` looks up
`assets/assets/response.txt`, which does not exist, and returns the fallback document
`<html>`, not `hello`; with the sample files at the root of the bundle it returns the
not-exist error of the fallback path. -/
theorem Open_prefixed_name_yields_fallback :
    (sampleFS.Open "assets/response.txt").opened
        = ["assets/assets/response.txt", "assets/index.html"] ∧
      (sampleFS.Open "assets/response.txt").result
        = .ok (.embedded { File := indexFile, buildTime := 1000, seekPtr := 0,
                           content := htmlBytes }) ∧
      htmlBytes ≠ helloBytes ∧
      ((NewFallbackFS rootBundleFS "assets" "index.html" 1000).Open
          "assets/response.txt").result = .error (notFound "assets/index.html") :=
  ⟨rfl, rfl, by decide, rfl⟩

/-- C14 (amended). With a bundle in which `assets/response.txt` is a regular file
holding `hello`, `assets/index.html` is a regular file holding `<html>`, and neither
`assets/missing/path` nor `assets/assets/missing/path` exists, and a `FallbackFS` built
with the prefix `assets` and the fallback `index.html`: `Open("response.txt")`, the name
relative to the prefix, returns a wrapper whose content is `hello`, and
`Open("missing/path")` and `Open("assets/missing/path")` return a wrapper whose content
is `<html>`. -/
theorem Open_scenario_A (fs : FS) (T : Int) (response index : File)
    (stR stI : FileInfo) (e1 e2 : GoError)
    (hR : fs.Open "assets/response.txt" = .ok response)
    (hRs : response.Stat = .ok stR) (hRd : stR.IsDir = false)
    (hRr : ioReadAll response = (helloBytes, none))
    (hI : fs.Open "assets/index.html" = .ok index)
    (hIs : index.Stat = .ok stI) (hId : stI.IsDir = false)
    (hIr : ioReadAll index = (htmlBytes, none))
    (hM1 : fs.Open "assets/missing/path" = .error e1)
    (hE1 : errorsIs e1 .ErrNotExist = true)
    (hM2 : fs.Open "assets/assets/missing/path" = .error e2)
    (hE2 : errorsIs e2 .ErrNotExist = true) :
    ((NewFallbackFS fs "assets" "index.html" T).Open "response.txt").result
        = .ok (.embedded { File := response, buildTime := T, seekPtr := 0,
                           content := helloBytes }) ∧
      ((NewFallbackFS fs "assets" "index.html" T).Open "missing/path").result
        = .ok (.embedded { File := index, buildTime := T, seekPtr := 0,
                           content := htmlBytes }) ∧
      ((NewFallbackFS fs "assets" "index.html" T).Open "assets/missing/path").result
        = .ok (.embedded { File := index, buildTime := T, seekPtr := 0,
                           content := htmlBytes }) := by
  have hfb : (NewFallbackFS fs "assets" "index.html" T).fallback = "assets/index.html" := by
    show filepathJoin "assets" "index.html" = "assets/index.html"
    decide
  have hwI := wrapOpened_regular T index stI htmlBytes hIs hId hIr
  refine ⟨?_, ?_, ?_⟩
  · have hp : filepathJoin (NewFallbackFS fs "assets" "index.html" T).pfx "response.txt"
        = "assets/response.txt" := by
      show filepathJoin "assets" "response.txt" = "assets/response.txt"
      decide
    rw [open_primary_ok _ "response.txt" response (by rw [hp]; exact hR)]
    exact wrapOpened_regular T response stR helloBytes hRs hRd hRr
  · have hp : filepathJoin (NewFallbackFS fs "assets" "index.html" T).pfx "missing/path"
        = "assets/missing/path" := by
      show filepathJoin "assets" "missing/path" = "assets/missing/path"
      decide
    rw [open_primary_missing _ "missing/path" e1 (by rw [hp]; exact hM1) hE1, hfb]
    show (fs.Open "assets/index.html").bind (wrapOpened T) = _
    rw [hI]
    exact hwI
  · have hp : filepathJoin (NewFallbackFS fs "assets" "index.html" T).pfx
        "assets/missing/path" = "assets/assets/missing/path" := by
      show filepathJoin "assets" "assets/missing/path" = "assets/assets/missing/path"
      decide
    rw [open_primary_missing _ "assets/missing/path" e2 (by rw [hp]; exact hM2) hE2, hfb]
    show (fs.Open "assets/index.html").bind (wrapOpened T) = _
    rw [hI]
    exact hwI

/-- Scenario A on the sample bundle. -/
theorem Open_scenario_A_witness :
    (sampleFS.Open "response.txt").result
        = .ok (.embedded { File := responseFile, buildTime := 1000, seekPtr := 0,
                           content := helloBytes }) ∧
      (sampleFS.Open "missing/path").result
        = .ok (.embedded { File := indexFile, buildTime := 1000, seekPtr := 0,
                           content := htmlBytes }) ∧
      (sampleFS.Open "assets/missing/path").result
        = .ok (.embedded { File := indexFile, buildTime := 1000, seekPtr := 0,
                           content := htmlBytes }) :=
  Open_scenario_A bundleFS 1000 responseFile indexFile
    ⟨"response.txt", 5, 292, 11, false, 0⟩ ⟨"index.html", 6, 292, 22, false, 0⟩
    (notFound "assets/missing/path") (notFound "assets/assets/missing/path")
    rfl rfl rfl rfl rfl rfl rfl rfl rfl rfl rfl rfl

end Uifs
